import Mathlib

set_option maxRecDepth 8000

/-!
# Verification of the 6502 emulator core (`src/cpu.rs`)

This file gives a shallow embedding of the instruction-execution core found in
`src/cpu.rs` and proves properties of it.  Machine integers are modelled as
`Nat` with explicit reductions modulo `2^8` / `2^16` exactly where the Rust
code's `u8`/`u16` types wrap; Rust operations that can panic
(`checked_add(..).expect(..)`, `checked_sub(..).expect(..)`, unsupported
match arms) are modelled in the `Except EmuError` monad, with `.overflow`
standing for the arithmetic-overflow panics and `.unsupported` for the
"unimplemented instruction" / "unsupported mode" panics.
-/

namespace M6502

/-- The two panic classes of the Rust core: the `expect` calls on
`checked_add`/`checked_sub` (arithmetic overflow) and the `panic!` arms for
unimplemented opcodes or unsupported (instruction, addressing-mode) pairs. -/
inductive EmuError where
  | unsupported
  | overflow
deriving DecidableEq, Repr

/-- Result monad for operations of the core that can panic in the source. -/
abbrev EmuM (α : Type) := Except EmuError α

/-- Mirrors the `CpuState` struct (registers and the five implemented status
flags).  Register fields carry `u8` values, modelled as `Nat`. -/
structure CpuState where
  a : Nat
  x : Nat
  y : Nat
  pch : Nat
  pcl : Nat
  negative : Bool
  signed_overflow : Bool
  decimal_mode : Bool
  zero : Bool
  carry : Bool
deriving Repr

/-- Mirrors the `SystemState` struct: CPU state plus the flat
`[u8; 0x10000]` memory, modelled as a function from address to byte. -/
structure SystemState where
  cpu_state : CpuState
  memory : Nat → Nat

/-- Mirrors the `AddressingMode` enum. -/
inductive AddressingMode where
  | I     -- Immediate
  | A     -- Absolute
  | Zp    -- Zero Page
  | Aix   -- Absolute Indexed X
  | Aiy   -- Absolute Indexed Y
  | Zpix  -- Zero Page Indexed X
  | Zpiix -- Zero Page Indexed Indirect X
  | Zpiiy -- Zero Page Indirect Indexed Y
  | Acc   -- Accumulator
deriving DecidableEq, Repr

/-- Rust `u8::overflowing_add`: wrapped sum and carry-out. -/
def overflowing_add_u8 (a b : Nat) : Nat × Bool :=
  ((a % 0x100 + b % 0x100) % 0x100, decide (0x100 ≤ a % 0x100 + b % 0x100))

/-- Rust `u8::overflowing_sub`: wrapped difference and borrow-out. -/
def overflowing_sub_u8 (a b : Nat) : Nat × Bool :=
  ((a % 0x100 + 0x100 - b % 0x100) % 0x100, decide (a % 0x100 < b % 0x100))

/-- Rust `u8::checked_add` specialised to its uses in the source: `none`
exactly when the sum leaves the `u8` range (where the source's `expect`
panics). -/
def checked_add_u8 (a b : Nat) : Option Nat :=
  if a % 0x100 + b ≤ 0xff then some (a % 0x100 + b) else none

/-- Rust `u8::checked_sub` specialised to its uses in the source. -/
def checked_sub_u8 (a b : Nat) : Option Nat :=
  if b ≤ a % 0x100 then some (a % 0x100 - b) else none

/-- `get_byte_at_addr`: `sys.memory[addr as usize]`.  The `% 0x10000` models
the `u16` index type and the `% 0x100` the `u8` element type of the array. -/
def get_byte_at_addr (sys : SystemState) (addr : Nat) : Nat :=
  sys.memory (addr % 0x10000) % 0x100

/-- `set_byte_at_addr`: `sys.memory[addr as usize] = byte`. -/
def set_byte_at_addr (sys : SystemState) (addr byte : Nat) : SystemState :=
  { sys with memory := fun a => if a = addr % 0x10000 then byte else sys.memory a }

/-- `cat_bytes`: `(u16::from(b1) << 8) | u16::from(b2)`. -/
def cat_bytes (b1 b2 : Nat) : Nat :=
  ((b1 % 0x100) <<< 8) ||| (b2 % 0x100)

/-- `get_immediate_byte`: reads the byte `offset` past the current program
counter.  The Rust `u16` addition `pc + offset` is modelled modulo `2^16`. -/
def get_immediate_byte (sys : SystemState) (offset : Nat) : Nat :=
  get_byte_at_addr sys ((cat_bytes sys.cpu_state.pch sys.cpu_state.pcl + offset) % 0x10000)

/-- `get_absolute_addr`: little-endian 16-bit address from the two bytes
after the opcode. -/
def get_absolute_addr (sys : SystemState) : Nat :=
  cat_bytes (get_immediate_byte sys 2) (get_immediate_byte sys 1)

/-- `get_absolute_byte`. -/
def get_absolute_byte (sys : SystemState) : Nat :=
  get_byte_at_addr sys (get_absolute_addr sys)

/-- `set_absolute_byte`. -/
def set_absolute_byte (sys : SystemState) (byte : Nat) : SystemState :=
  set_byte_at_addr sys (get_absolute_addr sys) byte

/-- `get_absolute_addr_indexed`: adds the index to the low address byte; on
carry the high byte goes through `checked_add(1).expect(..)`, which panics
(modelled as `.error .overflow`) when the high byte is `0xff`. -/
def get_absolute_addr_indexed (sys : SystemState) (index : Nat) : EmuM (Nat × Bool) :=
  let addr_lo := get_immediate_byte sys 1
  let addr_hi := get_immediate_byte sys 2
  let (addr_lo2, carry) := overflowing_add_u8 addr_lo index
  if carry then
    match checked_add_u8 addr_hi 1 with
    | none => .error .overflow
    | some addr_hi2 => .ok (cat_bytes addr_hi2 addr_lo2, carry)
  else
    .ok (cat_bytes addr_hi addr_lo2, carry)

/-- `get_absolute_byte_indexed`. -/
def get_absolute_byte_indexed (sys : SystemState) (index : Nat) : EmuM (Nat × Bool) := do
  let (addr, boundary_cross) ← get_absolute_addr_indexed sys index
  .ok (get_byte_at_addr sys addr, boundary_cross)

/-- `set_absolute_byte_indexed`. -/
def set_absolute_byte_indexed (sys : SystemState) (index byte : Nat) : EmuM SystemState := do
  let (addr, _) ← get_absolute_addr_indexed sys index
  .ok (set_byte_at_addr sys addr byte)

/-- `get_zero_page_byte`. -/
def get_zero_page_byte (sys : SystemState) : Nat :=
  get_byte_at_addr sys (get_immediate_byte sys 1)

/-- `set_zero_page_byte`. -/
def set_zero_page_byte (sys : SystemState) (byte : Nat) : SystemState :=
  set_byte_at_addr sys (get_immediate_byte sys 1) byte

/-- `get_zero_page_byte_indexed`: `wrapping_add` keeps the address inside the
zero page. -/
def get_zero_page_byte_indexed (sys : SystemState) (index : Nat) : Nat :=
  get_byte_at_addr sys ((get_immediate_byte sys 1 + index) % 0x100)

/-- `set_zero_page_byte_indexed`. -/
def set_zero_page_byte_indexed (sys : SystemState) (index byte : Nat) : SystemState :=
  set_byte_at_addr sys ((get_immediate_byte sys 1 + index) % 0x100) byte

/-- `get_zero_page_byte_indexed_indirect`: pointer at `(operand + index) mod
256`; the pointer's high byte is read from `(addr1 + 1) & 0xff`. -/
def get_zero_page_byte_indexed_indirect (sys : SystemState) (index : Nat) : Nat :=
  let addr1 := (get_immediate_byte sys 1 + index) % 0x100
  let addr2_lo := get_byte_at_addr sys addr1
  let addr2_hi := get_byte_at_addr sys ((addr1 + 1) &&& 0xff)
  get_byte_at_addr sys (cat_bytes addr2_hi addr2_lo)

/-- `get_zero_page_byte_indirect_indexed`: base pointer read from the zero
page (high byte from `(addr1 + 1) & 0xff`), then the index is added to the
low byte; on carry the high byte goes through `checked_add(1).expect(..)`. -/
def get_zero_page_byte_indirect_indexed (sys : SystemState) (index : Nat) : EmuM (Nat × Bool) :=
  let addr1 := get_immediate_byte sys 1
  let addr2_lo := get_byte_at_addr sys addr1
  let addr2_hi := get_byte_at_addr sys ((addr1 + 1) &&& 0xff)
  let (addr2_lo2, carry) := overflowing_add_u8 addr2_lo index
  if carry then
    match checked_add_u8 addr2_hi 1 with
    | none => .error .overflow
    | some addr2_hi2 => .ok (get_byte_at_addr sys (cat_bytes addr2_hi2 addr2_lo2), carry)
  else
    .ok (get_byte_at_addr sys (cat_bytes addr2_hi addr2_lo2), carry)

/-- Modelled from the spec: the `(zp),Y` resolver written with the spec's
words "(pointer address + 1) mod 256" for the high pointer byte read, for
comparison with the source's `(addr1 + 1) & 0xff`. -/
def get_zero_page_byte_indirect_indexed_spec (sys : SystemState) (index : Nat) :
    EmuM (Nat × Bool) :=
  let addr1 := get_immediate_byte sys 1
  let addr2_lo := get_byte_at_addr sys addr1
  let addr2_hi := get_byte_at_addr sys ((addr1 + 1) % 0x100)
  let (addr2_lo2, carry) := overflowing_add_u8 addr2_lo index
  if carry then
    match checked_add_u8 addr2_hi 1 with
    | none => .error .overflow
    | some addr2_hi2 => .ok (get_byte_at_addr sys (cat_bytes addr2_hi2 addr2_lo2), carry)
  else
    .ok (get_byte_at_addr sys (cat_bytes addr2_hi addr2_lo2), carry)

/-- `increment_pc`: adds `num` to the low program-counter byte; on carry the
high byte goes through `checked_add(1).expect("Overflow of program counter")`,
which panics (`.error .overflow`) when the high byte is `0xff`. -/
def increment_pc (sys : SystemState) (num : Nat) : EmuM (SystemState × Bool) :=
  let (pcl2, carry) := overflowing_add_u8 sys.cpu_state.pcl num
  let sys1 := { sys with cpu_state := { sys.cpu_state with pcl := pcl2 } }
  if carry then
    match checked_add_u8 sys1.cpu_state.pch 1 with
    | none => .error .overflow
    | some pch2 => .ok ({ sys1 with cpu_state := { sys1.cpu_state with pch := pch2 } }, carry)
  else
    .ok (sys1, carry)

/-- `decrement_pc`: subtracts `num` from the low program-counter byte; on
borrow the high byte goes through `checked_sub(1).expect(..)`, which panics
(`.error .overflow`) when the high byte is `0`. -/
def decrement_pc (sys : SystemState) (num : Nat) : EmuM (SystemState × Bool) :=
  let (pcl2, carry) := overflowing_sub_u8 sys.cpu_state.pcl num
  let sys1 := { sys with cpu_state := { sys.cpu_state with pcl := pcl2 } }
  if carry then
    match checked_sub_u8 sys1.cpu_state.pch 1 with
    | none => .error .overflow
    | some pch2 => .ok ({ sys1 with cpu_state := { sys1.cpu_state with pch := pch2 } }, carry)
  else
    .ok (sys1, carry)

/-- `negative_u8`: `(num >> 7) != 0`. -/
def negative_u8 (num : Nat) : Bool :=
  decide (num >>> 7 ≠ 0)

/-- `set_n_z`: negative and zero flags from a result byte. -/
def set_n_z (sys : SystemState) (result : Nat) : SystemState :=
  { sys with cpu_state := { sys.cpu_state with
      negative := negative_u8 result,
      zero := decide (result = 0) } }

/-- `bcd_add_digit`: one decimal digit with carry-in; sums above 9 are
corrected by subtracting 10 and carrying out. -/
def bcd_add_digit (a b : Nat) (carry : Bool) : Nat × Bool :=
  let sum := a + b + (bif carry then 1 else 0)
  if 9 < sum then (sum - 10, true) else (sum, false)

/-- `bcd_add`: per-nibble BCD addition of two bytes, low nibble first, with
the low-nibble carry propagated into the high nibble.  The recombination
`(res_hi << 4) | res_lo` is a `u8` shift in the source, which discards the
bits shifted out of the byte; the `% 0x100` on the shifted high nibble
models that truncation. -/
def bcd_add (a b : Nat) : Nat × Bool :=
  let lo := bcd_add_digit (a &&& 0x0f) (b &&& 0x0f) false
  let hi := bcd_add_digit (a >>> 4) (b >>> 4) lo.2
  (((hi.1 <<< 4) % 0x100) ||| lo.1, hi.2)

/-- `branch`: on a taken branch the displacement byte is split into sign bit
and 7-bit magnitude, the program counter is moved by the magnitude, and the
returned length is 0; a not-taken branch returns length 2 and 2 cycles. -/
def branch (sys : SystemState) (predicate : Bool) : EmuM (SystemState × Nat × Nat) :=
  if predicate then do
    let displacement := get_immediate_byte sys 1
    let displacement_mag := displacement &&& 0x7f
    let (sys2, page_cross) ←
      if displacement &&& 0x80 ≠ 0 then decrement_pc sys displacement_mag
      else increment_pc sys displacement_mag
    .ok (sys2, 0, 3 + (bif page_cross then 1 else 0))
  else
    .ok (sys, 2, 2)

/-- The operand/length/cycles match that the source writes out identically
inside both `adc` and `and`: operand resolution for the read-only modes,
with the page-cross cycle already added.  The `Acc` case is the `_ =>
panic!("unsupported mode ..")` arm. -/
def resolve_read_operand (sys : SystemState) (mode : AddressingMode) : EmuM (Nat × Nat × Nat) :=
  match mode with
  | .I => .ok (get_immediate_byte sys 1, 2, 2)
  | .A => .ok (get_absolute_byte sys, 3, 4)
  | .Zp => .ok (get_zero_page_byte sys, 2, 3)
  | .Aix => do
      let (byte, page_cross) ← get_absolute_byte_indexed sys sys.cpu_state.x
      .ok (byte, 3, 4 + (bif page_cross then 1 else 0))
  | .Aiy => do
      let (byte, page_cross) ← get_absolute_byte_indexed sys sys.cpu_state.y
      .ok (byte, 3, 4 + (bif page_cross then 1 else 0))
  | .Zpix => .ok (get_zero_page_byte_indexed sys sys.cpu_state.x, 2, 4)
  | .Zpiix => .ok (get_zero_page_byte_indexed_indirect sys sys.cpu_state.x, 2, 6)
  | .Zpiiy => do
      let (byte, page_cross) ← get_zero_page_byte_indirect_indexed sys sys.cpu_state.y
      .ok (byte, 2, 5 + (bif page_cross then 1 else 0))
  | .Acc => .error .unsupported

/-- The register/flag writes of `adc` after operand resolution: two-stage
accumulation (operand, then the old carry-in flag), through `bcd_add` in
decimal mode and `overflowing_add` otherwise; then carry, negative/zero and
the operational overflow rule `!negative_before && negative(a)`. -/
def adc_update (sys : SystemState) (operand : Nat) : SystemState :=
  let negative_before := negative_u8 sys.cpu_state.a
  let p1 :=
    if sys.cpu_state.decimal_mode then bcd_add sys.cpu_state.a operand
    else overflowing_add_u8 sys.cpu_state.a operand
  let p2 :=
    if sys.cpu_state.decimal_mode then bcd_add p1.1 (bif sys.cpu_state.carry then 1 else 0)
    else overflowing_add_u8 p1.1 (bif sys.cpu_state.carry then 1 else 0)
  { sys with cpu_state := { sys.cpu_state with
      a := p2.1,
      carry := p1.2 || p2.2,
      negative := negative_u8 p2.1,
      zero := decide (p2.1 = 0),
      signed_overflow := !negative_before && negative_u8 p2.1 } }

/-- `adc`: operand resolution (the shared match) followed by the
register/flag writes of `adc_update`. -/
def adc (sys : SystemState) (mode : AddressingMode) : EmuM (SystemState × Nat × Nat) := do
  let (operand, length, cycles) ← resolve_read_operand sys mode
  .ok (adc_update sys operand, length, cycles)

/-- `and`: accumulator masked with the operand, negative/zero updated. -/
def and (sys : SystemState) (mode : AddressingMode) : EmuM (SystemState × Nat × Nat) := do
  let (operand, length, cycles) ← resolve_read_operand sys mode
  let a2 := sys.cpu_state.a &&& operand
  let sys2 := { sys with cpu_state := { sys.cpu_state with
      a := a2,
      negative := negative_u8 a2,
      zero := decide (a2 = 0) } }
  .ok (sys2, length, cycles)

/-- `asl`: shift left by one (the `u8` shift drops the top bit) and write
back to the location the operand came from.  Note that the source updates no
flags here. -/
def asl (sys : SystemState) (mode : AddressingMode) : EmuM (SystemState × Nat × Nat) := do
  let (operand, length, cycles) ←
    (match mode with
     | .Acc => .ok (sys.cpu_state.a, 1, 2)
     | .A => .ok (get_absolute_byte sys, 3, 6)
     | .Zp => .ok (get_zero_page_byte sys, 2, 5)
     | .Aix => do
         let r ← get_absolute_byte_indexed sys sys.cpu_state.x
         .ok (r.1, 3, 7)
     | .Zpix => .ok (get_zero_page_byte_indexed sys sys.cpu_state.x, 2, 6)
     | _ => .error .unsupported : EmuM (Nat × Nat × Nat))
  let result := (operand <<< 1) % 0x100
  let sys2 ←
    (match mode with
     | .Acc => .ok { sys with cpu_state := { sys.cpu_state with a := result } }
     | .A => .ok (set_absolute_byte sys result)
     | .Zp => .ok (set_zero_page_byte sys result)
     | .Aix => set_absolute_byte_indexed sys sys.cpu_state.x result
     | .Zpix => .ok (set_zero_page_byte_indexed sys sys.cpu_state.x result)
     | _ => .error .unsupported : EmuM SystemState)
  .ok (sys2, length, cycles)

/-- `bcc`: branch on carry clear. -/
def bcc (sys : SystemState) : EmuM (SystemState × Nat × Nat) :=
  branch sys (!sys.cpu_state.carry)

/-- `bcs`: branch on carry set. -/
def bcs (sys : SystemState) : EmuM (SystemState × Nat × Nat) :=
  branch sys sys.cpu_state.carry

/-- `beq`: branch on zero set. -/
def beq (sys : SystemState) : EmuM (SystemState × Nat × Nat) :=
  branch sys sys.cpu_state.zero

/-- `bit`: negative from bit 7 of the operand, overflow from bit 6, zero
from `operand & a == 0`; the accumulator itself is not written. -/
def bit (sys : SystemState) (mode : AddressingMode) : EmuM (SystemState × Nat × Nat) := do
  let (operand, length, cycles) ←
    (match mode with
     | .A => .ok (get_absolute_byte sys, 3, 4)
     | .Zp => .ok (get_zero_page_byte sys, 2, 3)
     | _ => .error .unsupported : EmuM (Nat × Nat × Nat))
  let sys2 := { sys with cpu_state := { sys.cpu_state with
      negative := negative_u8 operand,
      signed_overflow := decide (operand &&& 0x40 ≠ 0x00),
      zero := decide (operand &&& sys.cpu_state.a = 0x00) } }
  .ok (sys2, length, cycles)

/-- `bmi`: branch on negative set. -/
def bmi (sys : SystemState) : EmuM (SystemState × Nat × Nat) :=
  branch sys sys.cpu_state.negative

/-- `bne`: branch on zero clear. -/
def bne (sys : SystemState) : EmuM (SystemState × Nat × Nat) :=
  branch sys (!sys.cpu_state.zero)

/-- `bpl`: branch on negative clear. -/
def bpl (sys : SystemState) : EmuM (SystemState × Nat × Nat) :=
  branch sys (!sys.cpu_state.negative)

/-- The opcode match of `emulate_op`, written as the equivalent chain of
equality tests in source order; the final arm is
`panic!("unimplemented instruction ..")`. -/
def dispatch (sys : SystemState) (opcode : Nat) : EmuM (SystemState × Nat × Nat) :=
  if opcode = 0x06 then asl sys .Zp
  else if opcode = 0x0a then asl sys .Acc
  else if opcode = 0x0e then asl sys .A
  else if opcode = 0x10 then bpl sys
  else if opcode = 0x1e then asl sys .Aix
  else if opcode = 0x16 then asl sys .Zpix
  else if opcode = 0x21 then and sys .Zpiix
  else if opcode = 0x24 then bit sys .Zp
  else if opcode = 0x25 then and sys .Zp
  else if opcode = 0x29 then and sys .I
  else if opcode = 0x2c then bit sys .A
  else if opcode = 0x2d then and sys .A
  else if opcode = 0x30 then bmi sys
  else if opcode = 0x31 then and sys .Zpiiy
  else if opcode = 0x35 then and sys .Zpix
  else if opcode = 0x39 then and sys .Aiy
  else if opcode = 0x3d then and sys .Aix
  else if opcode = 0x61 then adc sys .Zpiix
  else if opcode = 0x65 then adc sys .Zp
  else if opcode = 0x69 then adc sys .I
  else if opcode = 0x6d then adc sys .A
  else if opcode = 0x71 then adc sys .Zpiiy
  else if opcode = 0x75 then adc sys .Zpix
  else if opcode = 0x79 then adc sys .Aiy
  else if opcode = 0x7d then adc sys .Aix
  else if opcode = 0x90 then bcc sys
  else if opcode = 0xb0 then bcs sys
  else if opcode = 0xd0 then bne sys
  else if opcode = 0xf0 then beq sys
  else .error .unsupported

/-- `emulate_op`: fetch the opcode at the program counter, dispatch, advance
the program counter by the returned length, return the cycle count. -/
def emulate_op (sys : SystemState) : EmuM (SystemState × Nat) := do
  let opcode := get_immediate_byte sys 0
  let (sys1, length, cyc) ← dispatch sys opcode
  let (sys2, _) ← increment_pc sys1 length
  .ok (sys2, cyc)

/-! ## Spec-side definitions, opcode sets and concrete test states -/

/-- Decimal value of a byte read as two BCD digits. -/
def bcdVal (n : Nat) : Nat := 10 * (n / 16) + n % 16

/-- BCD encoding of a decimal value below 100. -/
def bcd_encode (v : Nat) : Nat := 16 * (v / 10) + v % 10

/-- Both nibbles of the byte are decimal digits 0-9. -/
def valid_bcd (n : Nat) : Prop := n / 16 ≤ 9 ∧ n % 16 ≤ 9

instance (n : Nat) : Decidable (valid_bcd n) := by
  unfold valid_bcd
  infer_instance

/-- The opcode bytes given a dispatch arm by `emulate_op`, in source order. -/
def implemented_opcodes : List Nat :=
  [0x06, 0x0a, 0x0e, 0x10, 0x1e, 0x16, 0x21, 0x24, 0x25, 0x29, 0x2c, 0x2d,
   0x30, 0x31, 0x35, 0x39, 0x3d, 0x61, 0x65, 0x69, 0x6d, 0x71, 0x75, 0x79,
   0x7d, 0x90, 0xb0, 0xd0, 0xf0]

/-- The eight ADC opcodes. -/
def adc_opcodes : List Nat := [0x61, 0x65, 0x69, 0x6d, 0x71, 0x75, 0x79, 0x7d]

/-- The six conditional-branch opcodes. -/
def branch_opcodes : List Nat := [0x10, 0x30, 0x90, 0xb0, 0xd0, 0xf0]

/-- Everything in the system state except the program counter is equal:
registers `a`/`x`/`y`, the five status flags, and the whole memory. -/
def RegFrame (s s2 : SystemState) : Prop :=
  s2.cpu_state.a = s.cpu_state.a ∧
  s2.cpu_state.x = s.cpu_state.x ∧
  s2.cpu_state.y = s.cpu_state.y ∧
  s2.cpu_state.negative = s.cpu_state.negative ∧
  s2.cpu_state.signed_overflow = s.cpu_state.signed_overflow ∧
  s2.cpu_state.decimal_mode = s.cpu_state.decimal_mode ∧
  s2.cpu_state.zero = s.cpu_state.zero ∧
  s2.cpu_state.carry = s.cpu_state.carry ∧
  s2.memory = s.memory

/-- Build a CPU state from explicit register and flag values. -/
def mkCpu (a x y pch pcl : Nat) (n v d z c : Bool) : CpuState :=
  { a := a, x := x, y := y, pch := pch, pcl := pcl,
    negative := n, signed_overflow := v, decimal_mode := d, zero := z, carry := c }

/-- Resulting state of a successful `emulate_op`, used to name concrete
outcomes in closed statements. -/
def emu_out (sys : SystemState) : SystemState :=
  match emulate_op sys with
  | .ok (s, _) => s
  | .error _ => sys

/-- Test state: a taken `BNE` (`0xd0`) at `pc = 0x0200` with zero flag
clear and displacement byte `0x05`. -/
def c1ex : SystemState :=
  { cpu_state := mkCpu 0 0 0 0x02 0x00 false false false false false,
    memory := fun addr =>
      if addr = 0x0200 then 0xd0 else if addr = 0x0201 then 0x05 else 0 }

/-- Test state: `ASL` accumulator (`0x0a`) at `pc = 0x0400` with
`a = 0x80`, negative flag set and zero flag clear. -/
def c2ex : SystemState :=
  { cpu_state := mkCpu 0x80 0 0 0x04 0x00 true false false false false,
    memory := fun addr => if addr = 0x0400 then 0x0a else 0 }

/-- Test state: `ADC` absolute,X (`0x7d`) with operand address `0xffff` and
`x = 1`, so indexing carries out of the 16-bit address space. -/
def c3ex : SystemState :=
  { cpu_state := mkCpu 0 1 0 0x03 0x00 false false false false false,
    memory := fun addr =>
      if addr = 0x0300 then 0x7d else if addr = 0x0301 then 0xff
      else if addr = 0x0302 then 0xff else 0 }

/-- Test state: a one-byte instruction (`ASL` accumulator) at
`pc = 0xffff`, so the program-counter advance carries out of 16 bits. -/
def c3ex2 : SystemState :=
  { cpu_state := mkCpu 0 0 0 0xff 0xff false false false false false,
    memory := fun addr => if addr = 0xffff then 0x0a else 0 }

/-- Test state: `ADC` (zp),Y (`0x71`) whose zero-page pointer holds
`0xffff` with `y = 1`, so indirect indexing carries out of 16 bits. -/
def c3ex3 : SystemState :=
  { cpu_state := mkCpu 0 0 1 0x03 0x00 false false false false false,
    memory := fun addr =>
      if addr = 0x0300 then 0x71 else if addr = 0x0301 then 0x20
      else if addr = 0x20 then 0xff else if addr = 0x21 then 0xff else 0 }

/-- Test state: decimal-mode `ADC` immediate (`0x69`) with `a = 0x99`,
operand `0x99` and carry-in clear. -/
def c4ex : SystemState :=
  { cpu_state := mkCpu 0x99 0 0 0x00 0x10 false false true false false,
    memory := fun addr =>
      if addr = 0x10 then 0x69 else if addr = 0x11 then 0x99 else 0 }

/-- Resulting state of `adc c4ex .I`, to name the outcome in a closed
statement. -/
def c4adc_out : SystemState :=
  match adc c4ex .I with
  | .ok (s, _, _) => s
  | .error _ => c4ex

/-- Test state for zero-page indexed wrap: operand byte `0xff`, with
distinct bytes planted at `0x01` (`0xbb`) and `0x101` (`0xaa`). -/
def c6ex : SystemState :=
  { cpu_state := mkCpu 0 0 0 0x02 0x00 false false false false false,
    memory := fun addr =>
      if addr = 0x0201 then 0xff else if addr = 0x01 then 0xbb
      else if addr = 0x101 then 0xaa else 0 }

/-- Test state for the indirect pointer wrap: pointer byte `0xff`, low
pointer byte `0x34` at `0xff`, high pointer byte `0x12` at `0x00`, a decoy
`0x77` at `0x100`, the payload `0x5a` at `0x1234` and a decoy payload at
`0x7734`. -/
def c6ex2 : SystemState :=
  { cpu_state := mkCpu 0 0 0 0x02 0x00 false false false false false,
    memory := fun addr =>
      if addr = 0x0201 then 0xff else if addr = 0xff then 0x34
      else if addr = 0x00 then 0x12 else if addr = 0x100 then 0x77
      else if addr = 0x1234 then 0x5a else if addr = 0x7734 then 0x99 else 0 }

/-- Test state: binary-mode `ADC` immediate with `a = 0x50` and operand
`0x50`, producing a negative result from a non-negative accumulator. -/
def c7ex : SystemState :=
  { cpu_state := mkCpu 0x50 0 0 0x00 0x20 false false false false false,
    memory := fun addr =>
      if addr = 0x20 then 0x69 else if addr = 0x21 then 0x50 else 0 }

/-- Test state: `BIT` zero page (`0x24`) with operand byte `0xc0` at
`0x40` and `a = 0x0f`. -/
def c8ex : SystemState :=
  { cpu_state := mkCpu 0x0f 0 0 0x00 0x30 false false false false false,
    memory := fun addr =>
      if addr = 0x30 then 0x24 else if addr = 0x31 then 0x40
      else if addr = 0x40 then 0xc0 else 0 }

/-- Test state: the unimplemented opcode `0xea` at the program counter. -/
def c9ex : SystemState :=
  { cpu_state := mkCpu 0 0 0 0x00 0x50 false false false false false,
    memory := fun addr => if addr = 0x50 then 0xea else 0 }

/-- Test state: the implemented opcode `0x69` at the program counter. -/
def c9ex2 : SystemState :=
  { cpu_state := mkCpu 0 0 0 0x00 0x60 false false false false false,
    memory := fun addr => if addr = 0x60 then 0x69 else 0 }

/-- Test state: a taken `BEQ` (`0xf0`) with nonzero registers, all-set
flags and displacement `0x10`. -/
def c10ex : SystemState :=
  { cpu_state := mkCpu 7 8 9 0x05 0x00 false true false true true,
    memory := fun addr =>
      if addr = 0x0500 then 0xf0 else if addr = 0x0501 then 0x10 else 0 }

/-! ## Arithmetic helper lemmas -/

theorem and_fifteen (x : Nat) : x &&& 0x0f = x % 16 :=
  Nat.and_pow_two_sub_one_eq_mod x 4

theorem shift_four (x : Nat) : x >>> 4 = x / 16 :=
  Nat.shiftRight_eq_div_pow x 4

theorem lor_digits : ∀ h < 16, ∀ l < 16, ((h <<< 4) % 0x100) ||| l = 16 * h + l := by
  decide

theorem land_mask_byte : ∀ n < 0x101, n &&& 0xff = n % 0x100 := by decide

theorem bcd_add_digit_fst (a b : Nat) (c : Bool) (ha : a ≤ 9) (hb : b ≤ 9) :
    (bcd_add_digit a b c).1 = (a + b + (bif c then 1 else 0)) % 10 := by
  cases c <;> simp only [bcd_add_digit, Bool.cond_true, Bool.cond_false] <;>
    split <;> dsimp only <;> omega

theorem bcd_add_digit_snd (a b : Nat) (c : Bool) :
    (bcd_add_digit a b c).2 = decide (10 ≤ a + b + (bif c then 1 else 0)) := by
  cases c <;> simp only [bcd_add_digit, Bool.cond_true, Bool.cond_false] <;> split <;>
    dsimp only <;> first
      | exact (decide_eq_true (by omega)).symm
      | exact (decide_eq_false (by omega)).symm

/-- Correctness of one `bcd_add` pass on BCD-valid bytes: the result byte is
the BCD encoding of the decimal sum modulo 100, and the carry flags a
decimal sum of at least 100. -/
theorem bcd_add_spec (a b : Nat) (ha : valid_bcd a) (hb : valid_bcd b) :
    bcd_add a b
      = (bcd_encode ((bcdVal a + bcdVal b) % 100),
         decide (100 ≤ bcdVal a + bcdVal b)) := by
  obtain ⟨ha1, ha0⟩ := ha
  obtain ⟨hb1, hb0⟩ := hb
  simp only [bcd_add, and_fifteen, shift_four]
  rw [bcd_add_digit_snd (a % 16) (b % 16) false,
      bcd_add_digit_fst (a % 16) (b % 16) false ha0 hb0,
      bcd_add_digit_snd (a / 16) (b / 16) _,
      bcd_add_digit_fst (a / 16) (b / 16) _ ha1 hb1]
  simp only [Bool.cond_false, Nat.add_zero]
  rw [lor_digits _ (by omega) _ (by omega)]
  simp only [bcd_encode, bcdVal, Prod.mk.injEq]
  by_cases hlo : 10 ≤ a % 16 + b % 16
  · simp only [decide_eq_true hlo, Bool.cond_true]
    constructor
    · omega
    · exact decide_eq_decide.mpr (by omega)
  · simp only [decide_eq_false hlo, Bool.cond_false, Nat.add_zero]
    constructor
    · omega
    · exact decide_eq_decide.mpr (by omega)

theorem valid_bcd_encode : ∀ v < 100, valid_bcd (bcd_encode v) := by decide

theorem bcdVal_encode : ∀ v < 100, bcdVal (bcd_encode v) = v := by decide

/-- Two `bcd_add` passes (operand, then a carry-in of at most 1) compute the
decimal sum modulo 100, and the disjunction of the two pass carries flags a
decimal sum of at least 100. -/
theorem bcd_two_pass (a b cin : Nat) (ha : valid_bcd a) (hb : valid_bcd b) (hc : cin ≤ 1) :
    valid_bcd (bcd_add (bcd_add a b).1 cin).1 ∧
    bcdVal (bcd_add (bcd_add a b).1 cin).1 = (bcdVal a + bcdVal b + cin) % 100 ∧
    ((bcd_add a b).2 || (bcd_add (bcd_add a b).1 cin).2)
      = decide (100 ≤ bcdVal a + bcdVal b + cin) := by
  have hvc : valid_bcd cin := by unfold valid_bcd; omega
  have hvcin : bcdVal cin = cin := by unfold bcdVal; omega
  have hs100 : (bcdVal a + bcdVal b) % 100 < 100 := Nat.mod_lt _ (by omega)
  have hve : valid_bcd (bcd_encode ((bcdVal a + bcdVal b) % 100)) :=
    valid_bcd_encode _ hs100
  have h1 := bcd_add_spec a b ha hb
  have h2 := bcd_add_spec (bcd_encode ((bcdVal a + bcdVal b) % 100)) cin hve hvc
  rw [h1]
  dsimp only
  rw [h2]
  dsimp only
  rw [bcdVal_encode _ hs100, hvcin]
  have hs100b : ((bcdVal a + bcdVal b) % 100 + cin) % 100 < 100 := Nat.mod_lt _ (by omega)
  refine ⟨valid_bcd_encode _ hs100b, ?_, ?_⟩
  · rw [bcdVal_encode _ hs100b]
    omega
  · by_cases hA : 100 ≤ bcdVal a + bcdVal b
    · rw [decide_eq_true hA, Bool.true_or]
      exact (decide_eq_true (by omega)).symm
    · rw [decide_eq_false hA, Bool.false_or]
      exact decide_eq_decide.mpr (by omega)

/-! ## Monad and frame lemmas -/

@[simp] theorem emu_bind_ok {α β : Type} (a : α) (k : α → EmuM β) :
    ((Except.ok a : EmuM α) >>= k) = k a := rfl

@[simp] theorem emu_bind_err {α β : Type} (e : EmuError) (k : α → EmuM β) :
    ((Except.error e : EmuM α) >>= k) = Except.error e := rfl

theorem regFrame_refl (s : SystemState) : RegFrame s s :=
  ⟨rfl, rfl, rfl, rfl, rfl, rfl, rfl, rfl, rfl⟩

theorem regFrame_trans {s1 s2 s3 : SystemState}
    (h : RegFrame s1 s2) (h2 : RegFrame s2 s3) : RegFrame s1 s3 := by
  obtain ⟨e1, e2, e3, e4, e5, e6, e7, e8, e9⟩ := h
  obtain ⟨f1, f2, f3, f4, f5, f6, f7, f8, f9⟩ := h2
  exact ⟨f1.trans e1, f2.trans e2, f3.trans e3, f4.trans e4, f5.trans e5,
         f6.trans e6, f7.trans e7, f8.trans e8, f9.trans e9⟩

/-- A successful `increment_pc` changes only the program counter. -/
theorem increment_pc_frame (sys : SystemState) (n : Nat) (out : SystemState × Bool)
    (h : increment_pc sys n = .ok out) : RegFrame sys out.1 := by
  unfold increment_pc at h
  dsimp only at h
  split at h
  · split at h
    · exact Except.noConfusion h
    · simp only [Except.ok.injEq] at h
      subst h
      exact ⟨rfl, rfl, rfl, rfl, rfl, rfl, rfl, rfl, rfl⟩
  · simp only [Except.ok.injEq] at h
    subst h
    exact ⟨rfl, rfl, rfl, rfl, rfl, rfl, rfl, rfl, rfl⟩

/-- A successful `decrement_pc` changes only the program counter. -/
theorem decrement_pc_frame (sys : SystemState) (n : Nat) (out : SystemState × Bool)
    (h : decrement_pc sys n = .ok out) : RegFrame sys out.1 := by
  unfold decrement_pc at h
  dsimp only at h
  split at h
  · split at h
    · exact Except.noConfusion h
    · simp only [Except.ok.injEq] at h
      subst h
      exact ⟨rfl, rfl, rfl, rfl, rfl, rfl, rfl, rfl, rfl⟩
  · simp only [Except.ok.injEq] at h
    subst h
    exact ⟨rfl, rfl, rfl, rfl, rfl, rfl, rfl, rfl, rfl⟩

/-- A successful `branch` changes only the program counter. -/
theorem branch_frame (sys : SystemState) (p : Bool) (out : SystemState × Nat × Nat)
    (h : branch sys p = .ok out) : RegFrame sys out.1 := by
  unfold branch at h
  dsimp only at h
  split at h
  · split at h
    · cases hd : decrement_pc sys (get_immediate_byte sys 1 &&& 0x7f) with
      | error e =>
          rw [hd] at h
          simp only [emu_bind_err] at h
          exact Except.noConfusion h
      | ok u =>
          obtain ⟨s2, pc⟩ := u
          rw [hd] at h
          simp only [emu_bind_ok, Except.ok.injEq] at h
          subst h
          exact decrement_pc_frame sys _ _ hd
    · cases hi : increment_pc sys (get_immediate_byte sys 1 &&& 0x7f) with
      | error e =>
          rw [hi] at h
          simp only [emu_bind_err] at h
          exact Except.noConfusion h
      | ok u =>
          obtain ⟨s2, pc⟩ := u
          rw [hi] at h
          simp only [emu_bind_ok, Except.ok.injEq] at h
          subst h
          exact increment_pc_frame sys _ _ hi
  · simp only [Except.ok.injEq] at h
    subst h
    exact regFrame_refl sys

/-! ## Instruction-level lemmas -/

/-- `adc` succeeds exactly when operand resolution does, and then performs
the `adc_update` register/flag writes. -/
theorem adc_ok_iff (sys : SystemState) (mode : AddressingMode) (sys2 : SystemState)
    (len cyc : Nat) :
    adc sys mode = .ok (sys2, len, cyc) ↔
      ∃ operand, resolve_read_operand sys mode = .ok (operand, len, cyc) ∧
        sys2 = adc_update sys operand := by
  unfold adc
  cases hr : resolve_read_operand sys mode with
  | error e =>
      constructor
      · intro hcon
        exact absurd hcon (by simp)
      · rintro ⟨op, hcon, h2⟩
        exact absurd hcon (by simp)
  | ok t =>
      obtain ⟨op, l, c⟩ := t
      simp only [emu_bind_ok, Except.ok.injEq, Prod.mk.injEq]
      constructor
      · rintro ⟨h1, h2, h3⟩
        exact ⟨op, by simp [h2, h3], h1.symm⟩
      · rintro ⟨op2, h1, h2⟩
        obtain ⟨e1, e2, e3⟩ := h1
        exact ⟨by rw [h2, e1], e2, e3⟩

/-- The overflow flag written by `adc_update` is the operational rule:
result negative while the accumulator was not negative before. -/
theorem adc_update_overflow_flag (sys : SystemState) (operand : Nat) :
    (adc_update sys operand).cpu_state.signed_overflow
      = (!negative_u8 sys.cpu_state.a
          && negative_u8 (adc_update sys operand).cpu_state.a) := rfl

/-- In decimal mode, `adc_update` is the two-pass `bcd_add` accumulation
with the carry flag set from either pass. -/
theorem adc_update_decimal (sys : SystemState) (operand : Nat)
    (h : sys.cpu_state.decimal_mode = true) :
    (adc_update sys operand).cpu_state.a
        = (bcd_add (bcd_add sys.cpu_state.a operand).1
            (bif sys.cpu_state.carry then 1 else 0)).1 ∧
    (adc_update sys operand).cpu_state.carry
        = ((bcd_add sys.cpu_state.a operand).2 ||
           (bcd_add (bcd_add sys.cpu_state.a operand).1
             (bif sys.cpu_state.carry then 1 else 0)).2) := by
  unfold adc_update
  simp [h]

/-- `bit` in zero-page mode: the flag writes and untouched accumulator. -/
theorem bit_zp_fields (sys : SystemState) :
    ∃ sys2, bit sys .Zp = .ok (sys2, 2, 3) ∧
      sys2.cpu_state.negative = negative_u8 (get_zero_page_byte sys) ∧
      sys2.cpu_state.signed_overflow = decide (get_zero_page_byte sys &&& 0x40 ≠ 0x00) ∧
      sys2.cpu_state.zero = decide (get_zero_page_byte sys &&& sys.cpu_state.a = 0x00) ∧
      sys2.cpu_state.a = sys.cpu_state.a :=
  ⟨_, rfl, rfl, rfl, rfl, rfl⟩

/-- `bit` in absolute mode: the flag writes and untouched accumulator. -/
theorem bit_abs_fields (sys : SystemState) :
    ∃ sys2, bit sys .A = .ok (sys2, 3, 4) ∧
      sys2.cpu_state.negative = negative_u8 (get_absolute_byte sys) ∧
      sys2.cpu_state.signed_overflow = decide (get_absolute_byte sys &&& 0x40 ≠ 0x00) ∧
      sys2.cpu_state.zero = decide (get_absolute_byte sys &&& sys.cpu_state.a = 0x00) ∧
      sys2.cpu_state.a = sys.cpu_state.a :=
  ⟨_, rfl, rfl, rfl, rfl, rfl⟩

/-- A successful `emulate_op` run decomposes into a successful dispatch and
a successful program-counter advance. -/
theorem emulate_op_ok_parts (sys sys2 : SystemState) (cyc : Nat)
    (h : emulate_op sys = .ok (sys2, cyc)) :
    ∃ s1 len b, dispatch sys (get_immediate_byte sys 0) = .ok (s1, len, cyc) ∧
      increment_pc s1 len = .ok (sys2, b) := by
  unfold emulate_op at h
  dsimp only at h
  cases hd : dispatch sys (get_immediate_byte sys 0) with
  | error e =>
      rw [hd] at h
      simp only [emu_bind_err] at h
      exact Except.noConfusion h
  | ok t =>
      obtain ⟨s1, len, cyc0⟩ := t
      rw [hd] at h
      simp only [emu_bind_ok] at h
      cases hi : increment_pc s1 len with
      | error e =>
          rw [hi] at h
          simp only [emu_bind_err] at h
          exact Except.noConfusion h
      | ok u =>
          obtain ⟨s2, b⟩ := u
          rw [hi] at h
          simp only [emu_bind_ok, Except.ok.injEq, Prod.mk.injEq] at h
          obtain ⟨h1, h2⟩ := h
          subst h1
          subst h2
          exact ⟨s1, len, b, rfl, hi⟩

/-! ## Dispatch totality lemmas -/

theorem noUns_bind {α β : Type} {m : EmuM α} {k : α → EmuM β}
    (hm : m ≠ .error .unsupported) (hk : ∀ a, k a ≠ .error .unsupported) :
    (m >>= k) ≠ .error .unsupported := by
  cases m with
  | error e => simpa using hm
  | ok a => simpa using hk a

theorem get_absolute_addr_indexed_noUns (sys : SystemState) (i : Nat) :
    get_absolute_addr_indexed sys i ≠ .error .unsupported := by
  unfold get_absolute_addr_indexed
  dsimp only
  split
  · split <;> simp
  · simp

theorem get_absolute_byte_indexed_noUns (sys : SystemState) (i : Nat) :
    get_absolute_byte_indexed sys i ≠ .error .unsupported := by
  unfold get_absolute_byte_indexed
  exact noUns_bind (get_absolute_addr_indexed_noUns sys i)
    (fun a => by rcases a with ⟨addr, bc⟩; simp)

theorem set_absolute_byte_indexed_noUns (sys : SystemState) (i b : Nat) :
    set_absolute_byte_indexed sys i b ≠ .error .unsupported := by
  unfold set_absolute_byte_indexed
  exact noUns_bind (get_absolute_addr_indexed_noUns sys i)
    (fun a => by rcases a with ⟨addr, bc⟩; simp)

theorem get_zero_page_byte_indirect_indexed_noUns (sys : SystemState) (i : Nat) :
    get_zero_page_byte_indirect_indexed sys i ≠ .error .unsupported := by
  unfold get_zero_page_byte_indirect_indexed
  dsimp only
  split
  · split <;> simp
  · simp

theorem increment_pc_noUns (sys : SystemState) (n : Nat) :
    increment_pc sys n ≠ .error .unsupported := by
  unfold increment_pc
  dsimp only
  split
  · split <;> simp
  · simp

theorem decrement_pc_noUns (sys : SystemState) (n : Nat) :
    decrement_pc sys n ≠ .error .unsupported := by
  unfold decrement_pc
  dsimp only
  split
  · split <;> simp
  · simp

theorem branch_noUns (sys : SystemState) (p : Bool) :
    branch sys p ≠ .error .unsupported := by
  unfold branch
  dsimp only
  split
  · split
    · exact noUns_bind (decrement_pc_noUns sys _)
        (fun a => by rcases a with ⟨s2, pc⟩; simp)
    · exact noUns_bind (increment_pc_noUns sys _)
        (fun a => by rcases a with ⟨s2, pc⟩; simp)
  · simp

theorem resolve_read_operand_noUns (sys : SystemState) (mode : AddressingMode)
    (hm : mode ≠ .Acc) : resolve_read_operand sys mode ≠ .error .unsupported := by
  cases mode with
  | I => simp [resolve_read_operand]
  | A => simp [resolve_read_operand]
  | Zp => simp [resolve_read_operand]
  | Zpix => simp [resolve_read_operand]
  | Zpiix => simp [resolve_read_operand]
  | Acc => exact absurd rfl hm
  | Aix =>
      unfold resolve_read_operand
      exact noUns_bind (get_absolute_byte_indexed_noUns sys _)
        (fun a => by rcases a with ⟨b, pc⟩; simp)
  | Aiy =>
      unfold resolve_read_operand
      exact noUns_bind (get_absolute_byte_indexed_noUns sys _)
        (fun a => by rcases a with ⟨b, pc⟩; simp)
  | Zpiiy =>
      unfold resolve_read_operand
      exact noUns_bind (get_zero_page_byte_indirect_indexed_noUns sys _)
        (fun a => by rcases a with ⟨b, pc⟩; simp)

theorem adc_noUns (sys : SystemState) (mode : AddressingMode) (hm : mode ≠ .Acc) :
    adc sys mode ≠ .error .unsupported := by
  unfold adc
  exact noUns_bind (resolve_read_operand_noUns sys mode hm)
    (fun a => by rcases a with ⟨op, l, c⟩; simp)

theorem and_noUns (sys : SystemState) (mode : AddressingMode) (hm : mode ≠ .Acc) :
    and sys mode ≠ .error .unsupported := by
  unfold and
  exact noUns_bind (resolve_read_operand_noUns sys mode hm)
    (fun a => by rcases a with ⟨op, l, c⟩; simp)

theorem asl_noUns (sys : SystemState) (mode : AddressingMode)
    (hm : mode = .Acc ∨ mode = .A ∨ mode = .Zp ∨ mode = .Aix ∨ mode = .Zpix) :
    asl sys mode ≠ .error .unsupported := by
  rcases hm with rfl | rfl | rfl | rfl | rfl
  · simp [asl]
  · simp [asl]
  · simp [asl]
  · unfold asl
    apply noUns_bind
    · exact noUns_bind (get_absolute_byte_indexed_noUns sys _)
        (fun a => by simp)
    · intro a
      rcases a with ⟨op, l, c⟩
      dsimp only
      apply noUns_bind
      · exact set_absolute_byte_indexed_noUns sys _ _
      · intro s2
        simp
  · simp [asl]

theorem bit_noUns (sys : SystemState) (mode : AddressingMode)
    (hm : mode = .Zp ∨ mode = .A) : bit sys mode ≠ .error .unsupported := by
  rcases hm with rfl | rfl <;> simp [bit]

theorem dispatch_in_set_noUns (sys : SystemState) (opcode : Nat)
    (h : opcode ∈ implemented_opcodes) :
    dispatch sys opcode ≠ .error .unsupported := by
  fin_cases h <;>
    norm_num [dispatch] <;>
    first
      | exact asl_noUns _ _ (by decide)
      | exact and_noUns _ _ (by decide)
      | exact adc_noUns _ _ (by decide)
      | exact bit_noUns _ _ (by decide)
      | exact branch_noUns _ _

theorem dispatch_not_in_set (sys : SystemState) (opcode : Nat)
    (h : opcode ∉ implemented_opcodes) : dispatch sys opcode = .error .unsupported := by
  simp only [implemented_opcodes, List.mem_cons, List.mem_singleton, not_or] at h
  obtain ⟨h1, h2, h3, h4, h5, h6, h7, h8, h9, h10, h11, h12, h13, h14, h15, h16, h17, h18, h19, h20, h21, h22, h23, h24, h25, h26, h27, h28, h29, -⟩ := h
  simp only [dispatch, if_neg h1, if_neg h2, if_neg h3, if_neg h4, if_neg h5, if_neg h6, if_neg h7, if_neg h8, if_neg h9, if_neg h10, if_neg h11, if_neg h12, if_neg h13, if_neg h14, if_neg h15, if_neg h16, if_neg h17, if_neg h18, if_neg h19, if_neg h20, if_neg h21, if_neg h22, if_neg h23, if_neg h24, if_neg h25, if_neg h26, if_neg h27, if_neg h28, if_neg h29]

theorem emulate_op_unsupported_iff (sys : SystemState) :
    emulate_op sys = .error .unsupported ↔
      get_immediate_byte sys 0 ∉ implemented_opcodes := by
  constructor
  · intro h
    intro hmem
    apply dispatch_in_set_noUns sys _ hmem
    unfold emulate_op at h
    dsimp only at h
    cases hd : dispatch sys (get_immediate_byte sys 0) with
    | error e =>
        rw [hd] at h
        simp only [emu_bind_err, Except.error.injEq] at h
        rw [h]
    | ok t =>
        obtain ⟨s1, len, cyc⟩ := t
        rw [hd] at h
        simp only [emu_bind_ok] at h
        exact absurd h (by
          apply noUns_bind (increment_pc_noUns s1 len)
          intro a
          rcases a with ⟨s2, b⟩
          simp)
  · intro h
    unfold emulate_op
    dsimp only
    rw [dispatch_not_in_set sys _ h]
    simp

/-! ## Claim theorems -/

/-- C1: the claim says a taken conditional branch ends with the program
counter at `old_pc + signed displacement + 2` (and a not-taken one at
`old_pc + 2`).  Evaluating the step on a taken `BNE` at `pc = 0x0200` with
displacement `0x05` shows the code instead ends at `0x0205` (the taken path
returns instruction length 0, so the +2 is never applied) with 3 cycles;
the claimed final counter `0x0207` is refuted. -/
theorem c1_taken_branch_eval :
    emulate_op c1ex = .ok (emu_out c1ex, 3) ∧
    (emu_out c1ex).cpu_state.pch = 0x02 ∧
    (emu_out c1ex).cpu_state.pcl = 0x05 ∧
    ¬((emu_out c1ex).cpu_state.pch = 0x02 ∧ (emu_out c1ex).cpu_state.pcl = 0x07) :=
  ⟨rfl, rfl, rfl, by decide⟩

/-- C2: the claim says `ASL` sets the negative and zero flags from the
shifted result in every supported mode.  Evaluating `ASL` accumulator with
`a = 0x80` (result `0x00`) shows the code leaves both flags untouched: zero
stays `false` and negative stays `true`, while the claim requires
`zero = true` and `negative = false` for result `0x00`. -/
theorem c2_asl_flags_eval :
    emulate_op c2ex = .ok (emu_out c2ex, 2) ∧
    (emu_out c2ex).cpu_state.a = 0x00 ∧
    (emu_out c2ex).cpu_state.zero = false ∧
    (emu_out c2ex).cpu_state.negative = true :=
  ⟨rfl, rfl, rfl, rfl⟩

/-- C3: the claim says address and program-counter arithmetic wraps
silently at every boundary and never aborts the step.  Evaluating the step
on (i) absolute,X resolution with base `0xffff` and `x = 1`, (ii) a
program-counter advance past `0xffff`, and (iii) `(zp),Y` resolution whose
pointer holds `0xffff` with `y = 1` shows all three abort with the
overflow panic (`checked_add(..).expect(..)` in the source) instead of
wrapping. -/
theorem c3_overflow_panics_eval :
    emulate_op c3ex = .error .overflow ∧
    emulate_op c3ex2 = .error .overflow ∧
    emulate_op c3ex3 = .error .overflow :=
  ⟨rfl, rfl, rfl⟩

/-- C4: in decimal mode `adc` performs the two `bcd_add` passes
(accumulator plus operand, then plus the old carry-in flag) and sets the
carry flag iff either pass carried; on BCD-valid inputs the result is the
decimal sum modulo 100 with valid nibbles and the carry flags a sum of at
least 100.  Concretely, `0x99 + 0x99` in decimal mode with carry-in clear
yields accumulator `0x98` (both nibbles valid decimal digits) and carry
set. -/
theorem c4_adc_decimal :
    (∀ sys mode sys2 len cyc, sys.cpu_state.decimal_mode = true →
      adc sys mode = .ok (sys2, len, cyc) →
      ∃ operand, resolve_read_operand sys mode = .ok (operand, len, cyc) ∧
        sys2.cpu_state.a = (bcd_add (bcd_add sys.cpu_state.a operand).1
            (bif sys.cpu_state.carry then 1 else 0)).1 ∧
        sys2.cpu_state.carry = ((bcd_add sys.cpu_state.a operand).2 ||
            (bcd_add (bcd_add sys.cpu_state.a operand).1
              (bif sys.cpu_state.carry then 1 else 0)).2) ∧
        (valid_bcd sys.cpu_state.a → valid_bcd operand →
          valid_bcd sys2.cpu_state.a ∧
          bcdVal sys2.cpu_state.a
            = (bcdVal sys.cpu_state.a + bcdVal operand
                + (bif sys.cpu_state.carry then 1 else 0)) % 100 ∧
          sys2.cpu_state.carry
            = decide (100 ≤ bcdVal sys.cpu_state.a + bcdVal operand
                + (bif sys.cpu_state.carry then 1 else 0)))) ∧
    (emulate_op c4ex = .ok (emu_out c4ex, 2) ∧
      (emu_out c4ex).cpu_state.a = 0x98 ∧
      valid_bcd (emu_out c4ex).cpu_state.a ∧
      (emu_out c4ex).cpu_state.carry = true) := by
  constructor
  · intro sys mode sys2 len cyc hdec hadc
    rw [adc_ok_iff] at hadc
    obtain ⟨op, hres, hs2⟩ := hadc
    obtain ⟨e1, e2⟩ := adc_update_decimal sys op hdec
    subst hs2
    refine ⟨op, hres, e1, e2, ?_⟩
    intro hva hvo
    have hc : (bif sys.cpu_state.carry then 1 else 0) ≤ 1 := by
      cases sys.cpu_state.carry <;> simp
    obtain ⟨v1, v2, v3⟩ := bcd_two_pass sys.cpu_state.a op _ hva hvo hc
    rw [e1, e2]
    exact ⟨v1, v2, v3⟩
  · exact ⟨rfl, rfl, by decide, rfl⟩

/-- C4 witness: the general statement applied to the concrete decimal
`ADC` immediate state `c4ex` (accumulator `0x99`, operand `0x99`). -/
theorem c4_adc_decimal_witness :
    (∃ operand, resolve_read_operand c4ex .I = .ok (operand, 2, 2) ∧
      c4adc_out.cpu_state.a = (bcd_add (bcd_add c4ex.cpu_state.a operand).1
          (bif c4ex.cpu_state.carry then 1 else 0)).1 ∧
      c4adc_out.cpu_state.carry = ((bcd_add c4ex.cpu_state.a operand).2 ||
          (bcd_add (bcd_add c4ex.cpu_state.a operand).1
            (bif c4ex.cpu_state.carry then 1 else 0)).2) ∧
      (valid_bcd c4ex.cpu_state.a → valid_bcd operand →
        valid_bcd c4adc_out.cpu_state.a ∧
        bcdVal c4adc_out.cpu_state.a
          = (bcdVal c4ex.cpu_state.a + bcdVal operand
              + (bif c4ex.cpu_state.carry then 1 else 0)) % 100 ∧
        c4adc_out.cpu_state.carry
          = decide (100 ≤ bcdVal c4ex.cpu_state.a + bcdVal operand
              + (bif c4ex.cpu_state.carry then 1 else 0)))) ∧
    valid_bcd c4adc_out.cpu_state.a ∧
    c4adc_out.cpu_state.carry = true := by
  refine ⟨c4_adc_decimal.1 c4ex .I c4adc_out 2 2 rfl rfl, by decide, rfl⟩

/-- C5: for bytes whose nibbles are decimal digits, `bcd_add` returns the
BCD encoding of the decimal sum modulo 100 and a carry flagging a sum of
at least 100; in particular `bcd_add 0x99 0x99 = (0x98, true)`. -/
theorem c5_bcd_add_full :
    (∀ a b : Nat, valid_bcd a → valid_bcd b →
      bcd_add a b = (bcd_encode ((bcdVal a + bcdVal b) % 100),
        decide (100 ≤ bcdVal a + bcdVal b))) ∧
    bcd_add 0x99 0x99 = (0x98, true) :=
  ⟨bcd_add_spec, by decide⟩

/-- C5 witness: the general statement applied at `a = 0x23`, `b = 0x45`
(decimal 23 + 45 = 68, no carry). -/
theorem c5_bcd_add_full_witness :
    bcd_add 0x23 0x45 = (bcd_encode ((bcdVal 0x23 + bcdVal 0x45) % 100),
      decide (100 ≤ bcdVal 0x23 + bcdVal 0x45)) :=
  c5_bcd_add_full.1 0x23 0x45 (by decide) (by decide)

theorem get_immediate_byte_lt (sys : SystemState) (k : Nat) :
    get_immediate_byte sys k < 0x100 := by
  unfold get_immediate_byte get_byte_at_addr
  exact Nat.mod_lt _ (by norm_num)

/-- C6: zero-page indexed addressing resolves to `(base + index) mod 256`
and never carries into page 1 (base `0xff`, index `2` reads `0x01`, where
`0xbb` is planted, not `0x101`, where `0xaa` is); and in both zero-page
indirect modes the pointer's high byte is read from `(pointer + 1) mod
256`, so a pointer at `0xff` takes its high byte from `0x00` (value
`0x12`), not from `0x100` (decoy `0x77`). -/
theorem c6_zero_page_wrap :
    (∀ sys index, get_zero_page_byte_indexed sys index
        = get_byte_at_addr sys ((get_immediate_byte sys 1 + index) % 0x100)) ∧
    get_zero_page_byte_indexed c6ex 2 = 0xbb ∧
    get_byte_at_addr c6ex 0x101 = 0xaa ∧
    (∀ sys index, get_zero_page_byte_indexed_indirect sys index
        = get_byte_at_addr sys (cat_bytes
            (get_byte_at_addr sys
              (((get_immediate_byte sys 1 + index) % 0x100 + 1) % 0x100))
            (get_byte_at_addr sys ((get_immediate_byte sys 1 + index) % 0x100)))) ∧
    (∀ sys index, get_zero_page_byte_indirect_indexed sys index
        = get_zero_page_byte_indirect_indexed_spec sys index) ∧
    get_zero_page_byte_indexed_indirect c6ex2 0 = 0x5a ∧
    get_zero_page_byte_indirect_indexed c6ex2 0 = .ok (0x5a, false) ∧
    get_byte_at_addr c6ex2 0x100 = 0x77 := by
  refine ⟨fun sys index => rfl, by decide, by decide, ?_, ?_, by decide, rfl, by decide⟩
  · intro sys index
    unfold get_zero_page_byte_indexed_indirect
    dsimp only
    rw [land_mask_byte _ (by omega)]
  · intro sys index
    have hb := get_immediate_byte_lt sys 1
    unfold get_zero_page_byte_indirect_indexed get_zero_page_byte_indirect_indexed_spec
    dsimp only
    rw [land_mask_byte _ (by omega)]

/-- C7: after every successful `ADC` step, in either arithmetic mode and
for every addressing mode, the overflow flag equals "final accumulator
negative and accumulator not negative before". -/
theorem c7_adc_overflow_flag : ∀ sys sys2 cyc,
    get_immediate_byte sys 0 ∈ adc_opcodes →
    emulate_op sys = .ok (sys2, cyc) →
    sys2.cpu_state.signed_overflow
      = (!negative_u8 sys.cpu_state.a && negative_u8 sys2.cpu_state.a) := by
  intro sys sys2 cyc hmem h
  obtain ⟨s1, len, b, hd, hi⟩ := emulate_op_ok_parts sys sys2 cyc h
  obtain ⟨ea, _, _, _, eo, _, _, _, _⟩ := increment_pc_frame s1 len (sys2, b) hi
  have key : ∀ mode, adc sys mode = .ok (s1, len, cyc) →
      sys2.cpu_state.signed_overflow
        = (!negative_u8 sys.cpu_state.a && negative_u8 sys2.cpu_state.a) := by
    intro mode hadc
    rw [adc_ok_iff] at hadc
    obtain ⟨op, hres, hs1⟩ := hadc
    rw [eo, ea, hs1]
    exact adc_update_overflow_flag sys op
  simp only [adc_opcodes, List.mem_cons, List.not_mem_nil, or_false] at hmem
  rcases hmem with h0 | h0 | h0 | h0 | h0 | h0 | h0 | h0 <;>
    rw [h0] at hd <;> norm_num [dispatch] at hd <;> exact key _ hd

/-- C7 witness: binary-mode `ADC` immediate `0x50 + 0x50` flips the sign
bit, so the overflow flag is set by the operational rule. -/
theorem c7_adc_overflow_flag_witness :
    emulate_op c7ex = .ok (emu_out c7ex, 2) ∧
    (emu_out c7ex).cpu_state.signed_overflow
      = (!negative_u8 c7ex.cpu_state.a && negative_u8 (emu_out c7ex).cpu_state.a) ∧
    (emu_out c7ex).cpu_state.signed_overflow = true :=
  ⟨rfl, c7_adc_overflow_flag c7ex (emu_out c7ex) 2 (by decide) rfl, rfl⟩

/-- C8: a successful `BIT` step (zero-page opcode `0x24` or absolute
opcode `0x2c`) sets negative from bit 7 of the operand, overflow from bit
6, zero from `operand AND accumulator == 0`, and leaves the accumulator
unchanged. -/
theorem c8_bit_semantics : ∀ sys sys2 cyc,
    (get_immediate_byte sys 0 = 0x24 → emulate_op sys = .ok (sys2, cyc) →
      sys2.cpu_state.negative = negative_u8 (get_zero_page_byte sys) ∧
      sys2.cpu_state.signed_overflow
        = decide (get_zero_page_byte sys &&& 0x40 ≠ 0x00) ∧
      sys2.cpu_state.zero
        = decide (get_zero_page_byte sys &&& sys.cpu_state.a = 0x00) ∧
      sys2.cpu_state.a = sys.cpu_state.a) ∧
    (get_immediate_byte sys 0 = 0x2c → emulate_op sys = .ok (sys2, cyc) →
      sys2.cpu_state.negative = negative_u8 (get_absolute_byte sys) ∧
      sys2.cpu_state.signed_overflow
        = decide (get_absolute_byte sys &&& 0x40 ≠ 0x00) ∧
      sys2.cpu_state.zero
        = decide (get_absolute_byte sys &&& sys.cpu_state.a = 0x00) ∧
      sys2.cpu_state.a = sys.cpu_state.a) := by
  intro sys sys2 cyc
  constructor
  · intro hop h
    obtain ⟨s1, len, b, hd, hi⟩ := emulate_op_ok_parts sys sys2 cyc h
    obtain ⟨ea, _, _, en, eo, _, ez, _, _⟩ := increment_pc_frame s1 len (sys2, b) hi
    rw [hop] at hd
    norm_num [dispatch] at hd
    obtain ⟨s2, hbit, f1, f2, f3, f4⟩ := bit_zp_fields sys
    rw [hbit] at hd
    simp only [Except.ok.injEq, Prod.mk.injEq] at hd
    obtain ⟨e1, -, -⟩ := hd
    subst e1
    exact ⟨en.trans f1, eo.trans f2, ez.trans f3, ea.trans f4⟩
  · intro hop h
    obtain ⟨s1, len, b, hd, hi⟩ := emulate_op_ok_parts sys sys2 cyc h
    obtain ⟨ea, _, _, en, eo, _, ez, _, _⟩ := increment_pc_frame s1 len (sys2, b) hi
    rw [hop] at hd
    norm_num [dispatch] at hd
    obtain ⟨s2, hbit, f1, f2, f3, f4⟩ := bit_abs_fields sys
    rw [hbit] at hd
    simp only [Except.ok.injEq, Prod.mk.injEq] at hd
    obtain ⟨e1, -, -⟩ := hd
    subst e1
    exact ⟨en.trans f1, eo.trans f2, ez.trans f3, ea.trans f4⟩

/-- C8 witness: `BIT` zero page on operand `0xc0` with `a = 0x0f`: negative
and overflow set from bits 7/6, zero set (no common bits), accumulator
unchanged. -/
theorem c8_bit_semantics_witness :
    emulate_op c8ex = .ok (emu_out c8ex, 3) ∧
    ((emu_out c8ex).cpu_state.negative = negative_u8 (get_zero_page_byte c8ex) ∧
      (emu_out c8ex).cpu_state.signed_overflow
        = decide (get_zero_page_byte c8ex &&& 0x40 ≠ 0x00) ∧
      (emu_out c8ex).cpu_state.zero
        = decide (get_zero_page_byte c8ex &&& c8ex.cpu_state.a = 0x00) ∧
      (emu_out c8ex).cpu_state.a = c8ex.cpu_state.a) :=
  ⟨rfl, (c8_bit_semantics c8ex (emu_out c8ex) 3).1 (by decide) rfl⟩

/-- C9: the step signals the unsupported-instruction condition exactly on
opcode bytes outside the 29 implemented ones; for implemented opcodes it
never signals that condition.  (The condition models the source's
`panic!("unimplemented instruction ..")`, raised before any state
mutation, so the system state is left unchanged.) -/
theorem c9_dispatch_total : ∀ sys : SystemState,
    (get_immediate_byte sys 0 ∉ implemented_opcodes →
      emulate_op sys = .error .unsupported) ∧
    (get_immediate_byte sys 0 ∈ implemented_opcodes →
      emulate_op sys ≠ .error .unsupported) := by
  intro sys
  constructor
  · intro h
    exact (emulate_op_unsupported_iff sys).mpr h
  · intro h hcon
    exact (emulate_op_unsupported_iff sys).mp hcon h

/-- C9 witness: opcode `0xea` (not implemented) signals unsupported;
opcode `0x69` (implemented) does not. -/
theorem c9_dispatch_total_witness :
    emulate_op c9ex = .error .unsupported ∧
    emulate_op c9ex2 ≠ .error .unsupported :=
  ⟨(c9_dispatch_total c9ex).1 (by decide), (c9_dispatch_total c9ex2).2 (by decide)⟩

/-- C10: a successful conditional-branch step (opcodes `0x10`, `0x30`,
`0x90`, `0xb0`, `0xd0`, `0xf0`), taken or not, changes only the program
counter: accumulator, X, Y, all five status flags and the whole memory are
unchanged. -/
theorem c10_branch_frame : ∀ sys sys2 cyc,
    get_immediate_byte sys 0 ∈ branch_opcodes →
    emulate_op sys = .ok (sys2, cyc) →
    RegFrame sys sys2 := by
  intro sys sys2 cyc hmem h
  obtain ⟨s1, len, b, hd, hi⟩ := emulate_op_ok_parts sys sys2 cyc h
  refine regFrame_trans ?_ (increment_pc_frame s1 len (sys2, b) hi)
  simp only [branch_opcodes, List.mem_cons, List.not_mem_nil, or_false] at hmem
  rcases hmem with h0 | h0 | h0 | h0 | h0 | h0 <;>
    rw [h0] at hd <;> norm_num [dispatch] at hd <;>
    exact branch_frame sys _ _ hd

/-- C10 witness: a taken `BEQ` with nonzero registers and all-set flags
leaves registers, flags and memory unchanged. -/
theorem c10_branch_frame_witness :
    emulate_op c10ex = .ok (emu_out c10ex, 3) ∧ RegFrame c10ex (emu_out c10ex) :=
  ⟨rfl, c10_branch_frame c10ex (emu_out c10ex) 3 (by decide) rfl⟩

end M6502

